import Mathlib

/-!
# Verification of the bronze/silver/gold VPC-metrics ETL pipeline

Shallow embedding of `src/backend/app/ingestion/aws/sql/bronze_vpc_metrics.sql`
(bronze table + silver promotion) and
`src/backend/app/ingestion/aws/sql/gold_vpc_metrics.sql`
(dimension upserts + aggregated fact insert).

Modelling conventions:
* SQL `TIMESTAMP` values are records of calendar fields with microsecond
  precision (`Timestamp`); `date_trunc('hour', ·)` / `date_trunc('second', ·)`
  zero the finer fields.
* SQL `DOUBLE PRECISION` is modelled by exact rationals (`Rat`).
* Nullable SQL columns are `Option` fields; `COALESCE` is `Option.getD`.
* `now()` (evaluated once per statement in Postgres) is an explicit
  `now : Timestamp` parameter of each operation.
* The `md5` digest is modelled by its pre-image string: the code concatenates
  the identity fields with `'|'` before hashing, and md5 is treated as
  injective (collisions are assumed negligible by the schema design), so the
  concatenated string itself serves as the digest value.
* `JSONB` payloads (`dimensions_json`) are opaque strings.
* Tables are lists of rows in insertion order; `SERIAL` surrogate keys are
  the row's index in its table.
* `INSERT ... ON CONFLICT` is modelled row-by-row in select order.
* A plain `INSERT` that would violate the `UNIQUE(hash_key)` constraint
  aborts the whole statement (Postgres statement-level atomicity): the model
  leaves the table unchanged in that case.
-/

/-- A SQL `TIMESTAMP` value: calendar fields down to microseconds. -/
structure Timestamp where
  year : Nat
  month : Nat
  day : Nat
  hour : Nat
  minute : Nat
  second : Nat
  micro : Nat
deriving DecidableEq, Repr

/-- `date_trunc('hour', t)`. -/
def truncHour (t : Timestamp) : Timestamp :=
  { t with minute := 0, second := 0, micro := 0 }

/-- `date_trunc('second', t)`. -/
def truncSecond (t : Timestamp) : Timestamp :=
  { t with micro := 0 }

/-- Zero-padded two-digit decimal rendering, as `to_char` produces. -/
def pad2 (n : Nat) : String :=
  if n < 10 then "0" ++ toString n else toString n

/-- Zero-padded four-digit decimal rendering, as `to_char` produces. -/
def pad4 (n : Nat) : String :=
  if n < 10 then "000" ++ toString n
  else if n < 100 then "00" ++ toString n
  else if n < 1000 then "0" ++ toString n
  else toString n

/-- `to_char(t, 'YYYY-MM-DD HH24:MI:SS')`. -/
def fmtTimestamp (t : Timestamp) : String :=
  pad4 t.year ++ "-" ++ pad2 t.month ++ "-" ++ pad2 t.day ++ " " ++
    pad2 t.hour ++ ":" ++ pad2 t.minute ++ ":" ++ pad2 t.second

/-- Lexicographic order on timestamps, for `MIN(ingested_at)`. -/
def tsLe (a b : Timestamp) : Bool :=
  (a.year, a.month, a.day, a.hour, a.minute, a.second, a.micro) ≤
    (b.year, b.month, b.day, b.hour, b.minute, b.second, b.micro)

/-- A row of `bronze_vpc_metrics` (all metric columns nullable; `hash_key`
is `NOT NULL` and unique, `ingested_at` defaults to the insert time). -/
structure BronzeRecord where
  vpc_id : Option String
  vpc_name : Option String
  resource_id : Option String
  resource_type : Option String
  region : Option String
  account_id : Option String
  timestamp : Option Timestamp
  metric_name : Option String
  value : Option Rat
  unit : Option String
  dimensions_json : Option String
  hash_key : String
  ingested_at : Timestamp
deriving DecidableEq, Repr

/-- A row of `silver_vpc_metrics` (same shape as bronze; the table itself
still declares the metric columns nullable). -/
structure SilverRecord where
  vpc_id : Option String
  vpc_name : Option String
  resource_id : Option String
  resource_type : Option String
  region : Option String
  account_id : Option String
  timestamp : Option Timestamp
  metric_name : Option String
  value : Option Rat
  unit : Option String
  dimensions_json : Option String
  hash_key : String
  ingested_at : Timestamp
deriving DecidableEq, Repr

/-- The `SELECT` list of the bronze→silver insert: `COALESCE` defaults per
column (`''` for the text fields except `resource_type`, which defaults to
`'vpc'`; `now()` for a missing timestamp; `0.0` for a missing value), with
`hash_key` and `ingested_at` carried over unchanged. -/
def canonicalize (now : Timestamp) (b : BronzeRecord) : SilverRecord :=
  { vpc_id := some (b.vpc_id.getD "")
    vpc_name := some (b.vpc_name.getD "")
    resource_id := some (b.resource_id.getD "")
    resource_type := some (b.resource_type.getD "vpc")
    region := some (b.region.getD "")
    account_id := some (b.account_id.getD "")
    timestamp := some (b.timestamp.getD now)
    metric_name := some (b.metric_name.getD "")
    value := some (b.value.getD 0)
    unit := some (b.unit.getD "")
    dimensions_json := b.dimensions_json
    hash_key := b.hash_key
    ingested_at := b.ingested_at }

/-- One row of the bronze→silver insert: the canonicalized row is appended
unless a silver row already carries its `hash_key`
(`ON CONFLICT (hash_key) DO NOTHING`). -/
def promoteStep (now : Timestamp) (acc : List SilverRecord)
    (b : BronzeRecord) : List SilverRecord :=
  if acc.any (fun s => s.hash_key = b.hash_key) then acc
  else acc ++ [canonicalize now b]

/-- `INSERT INTO silver_vpc_metrics SELECT DISTINCT ... FROM bronze_vpc_metrics
ON CONFLICT (hash_key) DO NOTHING`: each bronze row is canonicalized and
appended unless a silver row (pre-existing or inserted earlier in the same
statement) already carries its `hash_key`. -/
def promote (now : Timestamp) (silver : List SilverRecord)
    (bronze : List BronzeRecord) : List SilverRecord :=
  bronze.foldl (promoteStep now) silver

/-- Keep the first occurrence of each element, dropping later duplicates
(the effect of SQL `SELECT DISTINCT` on a row list, in scan order). -/
def firstDedup {α : Type} [DecidableEq α] (l : List α) : List α :=
  l.foldl (fun acc x => if x ∈ acc then acc else acc ++ [x]) []

/-- A row of `dim_vpc_resource` (the `SERIAL resource_key` is the row's
index in the table list). -/
structure ResourceDim where
  resource_id : String
  vpc_id : String
  vpc_name : String
  resource_type : String
  region : String
  account_id : String
  first_seen : Timestamp
deriving DecidableEq, Repr

/-- `MIN(ingested_at) OVER (PARTITION BY COALESCE(resource_id,''))`: the
least `ingested_at` among the batch rows sharing the coalesced resource id
(the seed row itself belongs to its partition). -/
def minIngestedFor (batch : List SilverRecord) (rid : String)
    (seed : Timestamp) : Timestamp :=
  (batch.filter (fun r => r.resource_id.getD "" = rid)).foldl
    (fun a b => if tsLe a b.ingested_at then a else b.ingested_at) seed

/-- One candidate row of the `dim_vpc_resource` upsert's `SELECT DISTINCT`
list: coalesced attributes (resource id NOT lower-cased here) plus the
partition-minimum `ingested_at` as `first_seen`. -/
def resourceRowOf (batch : List SilverRecord) (s : SilverRecord) :
    ResourceDim :=
  { resource_id := s.resource_id.getD ""
    vpc_id := s.vpc_id.getD ""
    vpc_name := s.vpc_name.getD ""
    resource_type := s.resource_type.getD "vpc"
    region := s.region.getD ""
    account_id := s.account_id.getD ""
    first_seen := minIngestedFor batch (s.resource_id.getD "") s.ingested_at }

/-- `ON CONFLICT (resource_id) DO UPDATE SET vpc_id = ..., vpc_name = ...,
resource_type = ..., region = ..., account_id = ...`: the descriptive
attributes are overwritten, `first_seen` is not in the update list. -/
def upsertResource (dim : List ResourceDim) (r : ResourceDim) :
    List ResourceDim :=
  if dim.any (fun d => d.resource_id = r.resource_id) then
    dim.map (fun d =>
      if d.resource_id = r.resource_id then
        { d with vpc_id := r.vpc_id, vpc_name := r.vpc_name,
                 resource_type := r.resource_type, region := r.region,
                 account_id := r.account_id }
      else d)
  else dim ++ [r]

/-- The whole `dim_vpc_resource` upsert statement, applied candidate row by
candidate row in select order. -/
def upsertResources (dim : List ResourceDim) (batch : List SilverRecord) :
    List ResourceDim :=
  (firstDedup (batch.map (resourceRowOf batch))).foldl upsertResource dim

/-- A row of `dim_vpc_metric`. -/
structure MetricDim where
  metric_name : Option String
  unit : Option String
  description : String
deriving DecidableEq, Repr

/-- `INSERT INTO dim_vpc_metric ... ON CONFLICT (metric_name) DO NOTHING`
for one candidate `(metric_name, unit)` pair; a `NULL` metric name never
conflicts (SQL unique indexes treat NULLs as distinct). -/
def metricStep (acc : List MetricDim) (p : Option String × Option String) :
    List MetricDim :=
  match p.1 with
  | none => acc ++ [⟨none, p.2, ""⟩]
  | some n =>
    if acc.any (fun d => d.metric_name = some n) then acc
    else acc ++ [⟨some n, p.2, ""⟩]

/-- The whole `dim_vpc_metric` insert statement. -/
def upsertMetrics (dims : List MetricDim) (batch : List SilverRecord) :
    List MetricDim :=
  (firstDedup (batch.map (fun s => (s.metric_name, s.unit)))).foldl
    metricStep dims

/-- A row of `dim_time_hour_vpc`. -/
structure TimeDim where
  event_hour : Timestamp
  event_date : Nat × Nat × Nat
  year : Nat
  month : Nat
  day : Nat
  hour : Nat
deriving DecidableEq, Repr

/-- One candidate row of the `dim_time_hour_vpc` insert: the hour-truncated
(coalesced) timestamp with its decomposed calendar fields. -/
def timeRowOf (now : Timestamp) (s : SilverRecord) : TimeDim :=
  let eh := truncHour (s.timestamp.getD now)
  { event_hour := eh
    event_date := (eh.year, eh.month, eh.day)
    year := eh.year, month := eh.month, day := eh.day, hour := eh.hour }

/-- The whole `dim_time_hour_vpc` insert statement
(`ON CONFLICT (event_hour) DO NOTHING`). -/
def upsertTimes (now : Timestamp) (dims : List TimeDim)
    (batch : List SilverRecord) : List TimeDim :=
  (firstDedup (batch.map (timeRowOf now))).foldl
    (fun acc t =>
      if acc.any (fun d => d.event_hour = t.event_hour) then acc
      else acc ++ [t])
    dims

/-- SQL `LOWER(...)`: character-wise lower-casing (modelled over the
string's character list). -/
def lowerString (s : String) : String :=
  String.mk (s.data.map Char.toLower)

/-- The `GROUP BY 1,2,3,4,5,6,7,8,9,10` key of the `metric_agg` CTE: the ten
selected plain columns, including the full (not hour-truncated) coalesced
timestamp as column 6. -/
structure AggKey where
  resource_id : String
  vpc_id : String
  vpc_name : String
  resource_type : String
  account_id : String
  timestamp : Timestamp
  event_hour : Timestamp
  event_date : Nat × Nat × Nat
  region : String
  metric_name : Option String
deriving DecidableEq, Repr

/-- The group key of one silver row: `LOWER(COALESCE(resource_id,''))`,
coalesced attributes, `COALESCE(timestamp, now())` and its hour truncation,
and the raw (un-coalesced) `metric_name`. -/
def aggKey (now : Timestamp) (s : SilverRecord) : AggKey :=
  let ts := s.timestamp.getD now
  { resource_id := lowerString (s.resource_id.getD "")
    vpc_id := s.vpc_id.getD ""
    vpc_name := s.vpc_name.getD ""
    resource_type := s.resource_type.getD "vpc"
    account_id := s.account_id.getD ""
    timestamp := ts
    event_hour := truncHour ts
    event_date := ((truncHour ts).year, (truncHour ts).month, (truncHour ts).day)
    region := s.region.getD ""
    metric_name := s.metric_name }

/-- `md5(LOWER(COALESCE(resource_id,'')) || '|' ||
COALESCE(to_char(date_trunc('second', COALESCE(timestamp, now())),
'YYYY-MM-DD HH24:MI:SS'),'') || '|' || COALESCE(metric_name,''))`, the md5
digest modelled by its pre-image string (all three hash inputs are group-by
columns, so the hash is a function of the group key). -/
def factHashOfKey (k : AggKey) : String :=
  k.resource_id ++ "|" ++ fmtTimestamp (truncSecond k.timestamp) ++ "|" ++
    k.metric_name.getD ""

/-- `AVG(value::float)`: SQL `AVG` ignores NULL inputs and is NULL on an
empty (all-NULL) input set. -/
def ratAvg (l : List Rat) : Option Rat :=
  match l with
  | [] => none
  | _ => some (l.foldl (fun a b => a + b) 0 / (l.length : Rat))

/-- Lexicographic code-point comparison of character lists (the
kernel-computable form of the `<` order on strings). -/
def charsLt : List Char → List Char → Bool
  | [], [] => false
  | [], _ :: _ => true
  | _ :: _, [] => false
  | a :: as, b :: bs =>
    if a.toNat < b.toNat then true
    else if b.toNat < a.toNat then false
    else charsLt as bs

/-- Binary maximum in SQL text order (modelled as code-point order). -/
def strMax (a b : String) : String :=
  if charsLt a.data b.data then b else a

/-- `MAX(unit)`: SQL `MAX` ignores NULL inputs and is NULL on an empty
(all-NULL) input set. -/
def maxUnit (l : List String) : Option String :=
  match l with
  | [] => none
  | u :: us => some (us.foldl strMax u)

/-- One aggregated row of the `metric_agg` CTE. -/
structure AggRow where
  key : AggKey
  value : Option Rat
  unit : Option String
  dimensions_agg : Option (List String)
  samples : Nat
  fact_hash_key : String
deriving DecidableEq, Repr

/-- The silver rows falling into the group of key `k`. -/
def groupOf (now : Timestamp) (batch : List SilverRecord) (k : AggKey) :
    List SilverRecord :=
  batch.filter (fun s => aggKey now s = k)

/-- The aggregates of one group: `AVG(value)`, `MAX(unit)`,
`jsonb_agg(DISTINCT dimensions_json) FILTER (WHERE dimensions_json IS NOT
NULL)` (NULL when no row passes the filter; element order modelled as first
occurrence), `COUNT(*)`, and the fact hash key. -/
def aggRowOf (now : Timestamp) (batch : List SilverRecord) (k : AggKey) :
    AggRow :=
  let grp := groupOf now batch k
  { key := k
    value := ratAvg (grp.filterMap (fun s => s.value))
    unit := maxUnit (grp.filterMap (fun s => s.unit))
    dimensions_agg :=
      match grp.filterMap (fun s => s.dimensions_json) with
      | [] => none
      | ds => some (firstDedup ds)
    samples := grp.length
    fact_hash_key := factHashOfKey k }

/-- The `metric_agg` CTE: one aggregated row per distinct group key, keys in
first-occurrence order. -/
def metricAgg (now : Timestamp) (batch : List SilverRecord) : List AggRow :=
  (firstDedup (batch.map (aggKey now))).map (aggRowOf now batch)

/-- JSONB value stored in the fact's `dimensions_json` column: a single
object or an array of objects. -/
inductive DimsJson where
  | obj : String → DimsJson
  | arr : List String → DimsJson
deriving DecidableEq, Repr

/-- `CASE WHEN a.dimensions_agg IS NULL THEN NULL WHEN
jsonb_array_length(a.dimensions_agg) = 1 THEN a.dimensions_agg->0 ELSE
a.dimensions_agg END`. -/
def dimsJsonOf : Option (List String) → Option DimsJson
  | none => none
  | some [d] => some (DimsJson.obj d)
  | some l => some (DimsJson.arr l)

/-- A row of `fact_vpc_metrics`. -/
structure FactRow where
  resource_key : Option Nat
  time_key : Option Nat
  resource_id : String
  vpc_id : String
  vpc_name : String
  resource_type : String
  account_id : String
  timestamp : Timestamp
  event_hour : Timestamp
  event_date : Nat × Nat × Nat
  region : String
  metric_name : Option String
  value : Option Rat
  unit : Option String
  dimensions_json : Option DimsJson
  samples : Nat
  hash_key : String
deriving DecidableEq, Repr

/-- The fact-insert `SELECT` list for one aggregated row:
`LEFT JOIN dim_vpc_resource res ON res.resource_id = a.resource_id` and
`LEFT JOIN dim_time_hour_vpc th ON th.event_hour = a.event_hour` resolve the
surrogate keys (NULL when no dimension row matches; the joined
`a.resource_id` is the lower-cased aggregate column). -/
def toFactRow (res : List ResourceDim) (tims : List TimeDim) (a : AggRow) :
    FactRow :=
  { resource_key := res.findIdx? (fun d => d.resource_id = a.key.resource_id)
    time_key := tims.findIdx? (fun d => d.event_hour = a.key.event_hour)
    resource_id := a.key.resource_id
    vpc_id := a.key.vpc_id
    vpc_name := a.key.vpc_name
    resource_type := a.key.resource_type
    account_id := a.key.account_id
    timestamp := a.key.timestamp
    event_hour := a.key.event_hour
    event_date := a.key.event_date
    region := a.key.region
    metric_name := a.key.metric_name
    value := a.value
    unit := a.unit
    dimensions_json := dimsJsonOf a.dimensions_agg
    samples := a.samples
    hash_key := a.fact_hash_key }

/-- The rows the fact insert would add would respect `UNIQUE(hash_key)`:
pairwise distinct hash keys, none already present in the table. -/
def factConflictFree (facts newRows : List FactRow) : Prop :=
  (newRows.map (fun f => f.hash_key)).Nodup ∧
    ∀ h ∈ newRows.map (fun f => f.hash_key),
      h ∉ facts.map (fun f => f.hash_key)

instance (facts newRows : List FactRow) :
    Decidable (factConflictFree facts newRows) := by
  unfold factConflictFree; infer_instance

/-- The fact `INSERT`: appends the new rows; if they would violate
`UNIQUE(hash_key)` the whole statement aborts and the table is unchanged. -/
def insertFacts (facts newRows : List FactRow) : List FactRow :=
  if factConflictFree facts newRows then facts ++ newRows else facts

/-- The gold-layer tables. -/
structure GoldState where
  resources : List ResourceDim
  metrics : List MetricDim
  times : List TimeDim
  facts : List FactRow
deriving DecidableEq, Repr

/-- Empty gold-layer state (freshly created tables). -/
def emptyGold : GoldState :=
  { resources := [], metrics := [], times := [], facts := [] }

/-- The rows the fact insert selects: each `metric_agg` row whose hash key no
existing fact carries (`WHERE NOT EXISTS (SELECT 1 FROM fact_vpc_metrics f
WHERE f.hash_key = a.fact_hash_key)`, evaluated against the pre-statement
table contents), joined against the freshly upserted dimension tables. -/
def newFactRows (now : Timestamp) (st : GoldState)
    (silver : List SilverRecord) : List FactRow :=
  ((metricAgg now silver).filter
      (fun a => !(st.facts.any (fun f => f.hash_key = a.fact_hash_key)))).map
    (toFactRow (upsertResources st.resources silver)
      (upsertTimes now st.times silver))

/-- One run of `gold_vpc_metrics.sql` over the current silver contents:
upsert the three dimensions from silver, aggregate silver into `metric_agg`,
and insert the aggregated rows not already present as facts. -/
def goldRun (now : Timestamp) (st : GoldState) (silver : List SilverRecord) :
    GoldState :=
  { resources := upsertResources st.resources silver
    metrics := upsertMetrics st.metrics silver
    times := upsertTimes now st.times silver
    facts := insertFacts st.facts (newFactRows now st silver) }

/-- Modelled from the spec: the bronze/silver fingerprint computation is not
in the repository's SQL sources (the ingestion code that populates the bronze
`hash_key` column is missing; the tables only declare and index it). Per the
spec it is a digest over the lower-cased resource identifier, the timestamp
truncated to one-second resolution in canonical `YYYY-MM-DD HH:MM:SS` form,
and the metric name, concatenated with a fixed delimiter; the digest is
modelled by its pre-image string exactly as for the gold fact hash. -/
def bronzeFingerprint (rid : String) (ts : Timestamp) (metric : String) :
    String :=
  lowerString rid ++ "|" ++ fmtTimestamp (truncSecond ts) ++ "|" ++ metric

/-- Stated from the spec's words "the most frequently … seen unit": a unit
is most frequent in a group when it occurs and no unit occurs strictly more
often. -/
def specMostFrequentUnit (units : List String) (u : String) : Prop :=
  u ∈ units ∧ ∀ v ∈ units, units.count v ≤ units.count u

instance (units : List String) (u : String) :
    Decidable (specMostFrequentUnit units u) := by
  unfold specMostFrequentUnit; infer_instance

/-- Stated from the spec's words "last-seen unit": the unit of the group's
last record that carries one. -/
def specLastSeenUnit (units : List String) : Option String :=
  units.getLast?

/-- Hour/minute/second on 2025-01-01, for concrete test inputs. -/
def tsAt (h m s : Nat) : Timestamp :=
  ⟨2025, 1, 1, h, m, s, 0⟩

/-- A concrete statement clock for test runs. -/
def now0 : Timestamp := ⟨2025, 1, 2, 0, 0, 0, 0⟩

/-- A later concrete statement clock, for second runs. -/
def now1 : Timestamp := ⟨2025, 1, 2, 1, 0, 0, 0⟩

/-- A fully populated silver record for concrete test inputs. -/
def mkSilver (rid : String) (t : Timestamp) (v : Rat) (u : String)
    (hk : String) : SilverRecord :=
  { vpc_id := some "vpc-1", vpc_name := some "prod",
    resource_id := some rid, resource_type := some "vpc",
    region := some "us-east-1", account_id := some "111",
    timestamp := some t, metric_name := some "CPUUtilization",
    value := some v, unit := some u, dimensions_json := none,
    hash_key := hk, ingested_at := tsAt 10 30 0 }

/-- Three silver records for one resource and metric, all inside hour 10 but
at distinct minutes, with values 10, 20, 30. -/
def hourBatch : List SilverRecord :=
  [mkSilver "r" (tsAt 10 0 0) 10 "Percent" "h1",
   mkSilver "r" (tsAt 10 1 0) 20 "Percent" "h2",
   mkSilver "r" (tsAt 10 2 0) 30 "Percent" "h3"]

/-- Three silver records for one resource and metric at the same exact
timestamp, with values 10, 20, 30. -/
def sameTsBatch : List SilverRecord :=
  [mkSilver "r" (tsAt 10 0 0) 10 "Percent" "h1",
   mkSilver "r" (tsAt 10 0 0) 20 "Percent" "h2",
   mkSilver "r" (tsAt 10 0 0) 30 "Percent" "h3"]

/-- One group whose records carry units "a", "b", "a" in scan order. -/
def unitsBatch : List SilverRecord :=
  [mkSilver "r" (tsAt 10 0 0) 10 "a" "h1",
   mkSilver "r" (tsAt 10 0 0) 20 "b" "h2",
   mkSilver "r" (tsAt 10 0 0) 30 "a" "h3"]

/-- A single silver record whose resource id has upper-case letters. -/
def mixedCaseBatch : List SilverRecord :=
  [mkSilver "VPC-A" (tsAt 10 0 0) 10 "Percent" "h1"]

/-- A late-arriving record in hour 10, at a minute none of `hourBatch`'s
records use. -/
def lateRecord : SilverRecord :=
  mkSilver "r" (tsAt 10 5 0) 99 "Percent" "h9"

/-- Two records agreeing on lower-cased resource id, second-truncated
timestamp and metric name but with different vpc names. -/
def clashA : SilverRecord :=
  { mkSilver "r" (tsAt 10 0 0) 10 "Percent" "h1" with vpc_name := some "one" }

/-- Companion of `clashA` with a different `vpc_name`. -/
def clashB : SilverRecord :=
  { mkSilver "r" (tsAt 10 0 0) 20 "Percent" "h2" with vpc_name := some "two" }

/-- A bronze record with every nullable column absent. -/
def bronzeNull : BronzeRecord :=
  { vpc_id := none, vpc_name := none, resource_id := none,
    resource_type := none, region := none, account_id := none,
    timestamp := none, metric_name := none, value := none, unit := none,
    dimensions_json := none, hash_key := "hb", ingested_at := tsAt 9 0 0 }

/-- The aggregated row whose group is `unitsBatch` (used as a concrete
aggregation group below). -/
def unitsAggRow : AggRow :=
  aggRowOf now0 unitsBatch (aggKey now0 (mkSilver "r" (tsAt 10 0 0) 10 "a" "h1"))

theorem promote_cons (now : Timestamp) (silver : List SilverRecord)
    (b : BronzeRecord) (bs : List BronzeRecord) :
    promote now silver (b :: bs) = promote now (promoteStep now silver b) bs :=
  rfl

theorem promoteStep_pos (now : Timestamp) (acc : List SilverRecord)
    (b : BronzeRecord)
    (h : acc.any (fun s => s.hash_key = b.hash_key) = true) :
    promoteStep now acc b = acc := by
  unfold promoteStep; rw [h]; rfl

theorem promoteStep_neg (now : Timestamp) (acc : List SilverRecord)
    (b : BronzeRecord)
    (h : acc.any (fun s => s.hash_key = b.hash_key) = false) :
    promoteStep now acc b = acc ++ [canonicalize now b] := by
  unfold promoteStep; rw [h]; rfl

theorem promote_exists_append (now : Timestamp) (bronze : List BronzeRecord) :
    ∀ silver : List SilverRecord,
      ∃ t, promote now silver bronze = silver ++ t := by
  induction bronze with
  | nil => intro silver; exact ⟨[], by simp [promote]⟩
  | cons b bs ih =>
    intro silver
    rw [promote_cons]
    cases h : silver.any (fun s => s.hash_key = b.hash_key) with
    | true =>
      obtain ⟨t, ht⟩ := ih silver
      exact ⟨t, by rw [promoteStep_pos now silver b h, ht]⟩
    | false =>
      obtain ⟨t, ht⟩ := ih (silver ++ [canonicalize now b])
      refine ⟨canonicalize now b :: t, ?_⟩
      rw [promoteStep_neg now silver b h, ht, List.append_assoc]
      rfl

theorem promote_hash_mem (now : Timestamp) (bronze : List BronzeRecord) :
    ∀ silver : List SilverRecord, ∀ b ∈ bronze,
      (promote now silver bronze).any
        (fun s => s.hash_key = b.hash_key) = true := by
  induction bronze with
  | nil => intro _ b hb; cases hb
  | cons c cs ih =>
    intro silver b hb
    rcases List.mem_cons.mp hb with hb | hb
    · subst hb
      rw [promote_cons]
      obtain ⟨t, ht⟩ := promote_exists_append now cs (promoteStep now silver b)
      rw [ht, List.any_append]
      cases h : silver.any (fun s => s.hash_key = b.hash_key) with
      | true => rw [promoteStep_pos now silver b h, h]; rfl
      | false =>
        rw [promoteStep_neg now silver b h, List.any_append]
        simp [canonicalize]
    · rw [promote_cons]
      exact ih _ b hb

theorem promote_of_all_present (now : Timestamp) (bronze : List BronzeRecord) :
    ∀ silver : List SilverRecord,
      (∀ b ∈ bronze,
        silver.any (fun s => s.hash_key = b.hash_key) = true) →
      promote now silver bronze = silver := by
  induction bronze with
  | nil => intro silver _; simp [promote]
  | cons c cs ih =>
    intro silver hall
    have hc := hall c (List.mem_cons_self c cs)
    rw [promote_cons, promoteStep_pos now silver c hc]
    exact ih silver (fun b hb => hall b (List.mem_cons_of_mem c hb))

theorem promote_any_mono (now : Timestamp) (bronze : List BronzeRecord)
    (silver : List SilverRecord) (p : SilverRecord → Bool)
    (h : silver.any p = true) :
    (promote now silver bronze).any p = true := by
  obtain ⟨t, ht⟩ := promote_exists_append now bronze silver
  rw [ht, List.any_append, h]; rfl

/-- **C5.** Bronze→silver promotion run twice with no new bronze data
leaves silver unchanged, and promotion never overwrites an existing silver
row (it only appends records whose fingerprint is absent). -/
theorem C5_promote_twice_leaves_silver_unchanged
    (now₁ now₂ : Timestamp)
    (silver : List SilverRecord) (bronze : List BronzeRecord) :
    promote now₂ (promote now₁ silver bronze) bronze =
      promote now₁ silver bronze ∧
    ∃ t, promote now₁ silver bronze = silver ++ t := by
  constructor
  · exact promote_of_all_present now₂ bronze _
      (fun b hb => promote_hash_mem now₁ bronze silver b hb)
  · exact promote_exists_append now₁ bronze silver

theorem firstDedup_sub {α : Type} [DecidableEq α] (l : List α) :
    ∀ acc : List α, ∀ x,
      x ∈ l.foldl (fun acc x => if x ∈ acc then acc else acc ++ [x]) acc →
      x ∈ acc ∨ x ∈ l := by
  induction l with
  | nil => intro acc x hx; exact Or.inl hx
  | cons a as ih =>
    intro acc x hx
    simp only [List.foldl_cons] at hx
    rcases ih _ x hx with h | h
    · by_cases ha : a ∈ acc
      · rw [if_pos ha] at h; exact Or.inl h
      · rw [if_neg ha] at h
        rcases List.mem_append.mp h with h | h
        · exact Or.inl h
        · simp only [List.mem_singleton] at h
          exact Or.inr (h ▸ List.mem_cons_self a as)
    · exact Or.inr (List.mem_cons_of_mem a h)

theorem mem_firstDedup_of_mem {α : Type} [DecidableEq α] (l : List α) :
    ∀ acc : List α, ∀ x, (x ∈ acc ∨ x ∈ l) →
      x ∈ l.foldl (fun acc x => if x ∈ acc then acc else acc ++ [x]) acc := by
  induction l with
  | nil => intro acc x hx; exact hx.resolve_right (by simp)
  | cons a as ih =>
    intro acc x hx
    simp only [List.foldl_cons]
    by_cases ha : a ∈ acc
    · rw [if_pos ha]
      rcases hx with h | h
      · exact ih acc x (Or.inl h)
      · rcases List.mem_cons.mp h with h | h
        · exact ih acc x (Or.inl (h ▸ ha))
        · exact ih acc x (Or.inr h)
    · rw [if_neg ha]
      rcases hx with h | h
      · exact ih _ x (Or.inl (List.mem_append_left _ h))
      · rcases List.mem_cons.mp h with h | h
        · exact ih _ x (Or.inl (List.mem_append_right _ (by simp [h])))
        · exact ih _ x (Or.inr h)

theorem mem_firstDedup {α : Type} [DecidableEq α] (l : List α) (x : α) :
    x ∈ firstDedup l ↔ x ∈ l := by
  constructor
  · intro hx
    rcases firstDedup_sub l [] x hx with h | h
    · cases h
    · exact h
  · intro hx
    exact mem_firstDedup_of_mem l [] x (Or.inr hx)

theorem toFactRow_hash_key (res : List ResourceDim) (tims : List TimeDim)
    (a : AggRow) : (toFactRow res tims a).hash_key = a.fact_hash_key :=
  rfl

theorem goldRun_facts (now : Timestamp) (st : GoldState)
    (silver : List SilverRecord) :
    (goldRun now st silver).facts =
      insertFacts st.facts (newFactRows now st silver) :=
  rfl

theorem insertFacts_of_free (facts newRows : List FactRow)
    (h : factConflictFree facts newRows) :
    insertFacts facts newRows = facts ++ newRows := by
  unfold insertFacts; rw [if_pos h]

theorem insertFacts_of_clash (facts newRows : List FactRow)
    (h : ¬ factConflictFree facts newRows) :
    insertFacts facts newRows = facts := by
  unfold insertFacts; rw [if_neg h]

theorem goldRun_facts_append (now : Timestamp) (st : GoldState)
    (silver : List SilverRecord) :
    ∃ t, (goldRun now st silver).facts = st.facts ++ t := by
  rw [goldRun_facts]
  by_cases h : factConflictFree st.facts (newFactRows now st silver)
  · exact ⟨_, insertFacts_of_free _ _ h⟩
  · exact ⟨[], by rw [insertFacts_of_clash _ _ h, List.append_nil]⟩

theorem aggKey_now_indep (now₁ now₂ : Timestamp) (s : SilverRecord)
    (h : s.timestamp.isSome = true) :
    aggKey now₁ s = aggKey now₂ s := by
  cases hts : s.timestamp with
  | none => rw [hts] at h; cases h
  | some t => unfold aggKey; rw [hts]; rfl

theorem groupOf_now_indep (now₁ now₂ : Timestamp)
    (batch : List SilverRecord)
    (h : ∀ s ∈ batch, s.timestamp.isSome = true) (k : AggKey) :
    groupOf now₁ batch k = groupOf now₂ batch k := by
  unfold groupOf
  exact List.filter_congr
    (fun s hs => by rw [aggKey_now_indep now₁ now₂ s (h s hs)])

theorem aggRowOf_now_indep (now₁ now₂ : Timestamp)
    (batch : List SilverRecord)
    (h : ∀ s ∈ batch, s.timestamp.isSome = true) (k : AggKey) :
    aggRowOf now₁ batch k = aggRowOf now₂ batch k := by
  unfold aggRowOf
  rw [groupOf_now_indep now₁ now₂ batch h k]

theorem metricAgg_now_indep (now₁ now₂ : Timestamp)
    (batch : List SilverRecord)
    (h : ∀ s ∈ batch, s.timestamp.isSome = true) :
    metricAgg now₁ batch = metricAgg now₂ batch := by
  unfold metricAgg
  rw [List.map_congr_left
    (fun s hs => aggKey_now_indep now₁ now₂ s (h s hs))]
  exact List.map_congr_left
    (fun k _ => aggRowOf_now_indep now₁ now₂ batch h k)

/-- **C2 (counterexample).** For resource `i-123`, timestamp
2025-01-01 10:15:30 and metric `CPUUtilization`, the gold fact hash computed
by `metric_agg` equals the bronze/silver fingerprint of the very same triple
(same fields, same second-truncated timestamp, same hash domain), and it is
NOT the digest over the hour-bucket start 10:00:00 — refuting both the
hour-bucket substitution and the claimed collision-freedom between the
bronze and gold fingerprint domains. -/
theorem C2_counterexample :
    factHashOfKey
        (aggKey now0 (mkSilver "i-123" (tsAt 10 15 30) 50 "Percent" "hx")) =
      bronzeFingerprint "i-123" (tsAt 10 15 30) "CPUUtilization" ∧
    factHashOfKey
        (aggKey now0 (mkSilver "i-123" (tsAt 10 15 30) 50 "Percent" "hx")) ≠
      bronzeFingerprint "i-123" (truncHour (tsAt 10 15 30))
        "CPUUtilization" := by
  constructor
  · rfl
  · decide

/-- **C2 (amended).** The gold fact fingerprint is computed over the same
three fields as the bronze/silver fingerprint — lower-cased resource id,
SECOND-truncated (not hour-bucket) timestamp, metric name — in the same hash
domain: for every silver record it coincides exactly with the bronze/silver
fingerprint of its coalesced fields, so identical inputs yield identical
digests in the two layers. -/
theorem C2_gold_hash_matches_bronze_domain (now : Timestamp)
    (s : SilverRecord) :
    factHashOfKey (aggKey now s) =
      bronzeFingerprint (s.resource_id.getD "") (s.timestamp.getD now)
        (s.metric_name.getD "") :=
  rfl

/-- **C2 (amended) witness.** The amended statement evaluated at a concrete
record. -/
theorem C2_gold_hash_matches_bronze_domain_witness :
    factHashOfKey
        (aggKey now0 (mkSilver "i-123" (tsAt 10 15 30) 50 "Percent" "hx")) =
      bronzeFingerprint "i-123" (tsAt 10 15 30) "CPUUtilization" :=
  C2_gold_hash_matches_bronze_domain now0
    (mkSilver "i-123" (tsAt 10 15 30) 50 "Percent" "hx")

/-- **C6 (counterexample).** A bronze record with all nullable fields absent
is promoted with `resource_type = 'vpc'`, not the empty string, and its
missing event timestamp becomes the promotion statement's clock, not the
record's own `ingested_at`. -/
theorem C6_counterexample :
    (canonicalize now0 bronzeNull).resource_type ≠ some "" ∧
    (canonicalize now0 bronzeNull).timestamp = some now0 ∧
    (canonicalize now0 bronzeNull).timestamp ≠
      some bronzeNull.ingested_at := by
  refine ⟨?_, rfl, ?_⟩ <;> decide

/-- **C6 (amended).** In bronze→silver canonicalization each absent field is
replaced by its domain default: the text identity fields vpc id, vpc name,
resource id, region and account id become the empty string, a missing
`resource_type` becomes `'vpc'`, a missing event timestamp becomes the
promotion statement's current clock (`now()`), a missing numeric value
becomes zero, and a missing unit becomes the empty string. -/
theorem C6_canonicalize_defaults (now : Timestamp) (b : BronzeRecord) :
    (b.vpc_id = none → (canonicalize now b).vpc_id = some "") ∧
    (b.vpc_name = none → (canonicalize now b).vpc_name = some "") ∧
    (b.resource_id = none → (canonicalize now b).resource_id = some "") ∧
    (b.resource_type = none →
      (canonicalize now b).resource_type = some "vpc") ∧
    (b.region = none → (canonicalize now b).region = some "") ∧
    (b.account_id = none → (canonicalize now b).account_id = some "") ∧
    (b.timestamp = none → (canonicalize now b).timestamp = some now) ∧
    (b.value = none → (canonicalize now b).value = some 0) ∧
    (b.unit = none → (canonicalize now b).unit = some "") := by
  refine ⟨?_, ?_, ?_, ?_, ?_, ?_, ?_, ?_, ?_⟩ <;>
    · intro h; simp [canonicalize, h]

/-- **C6 (amended) witness.** The defaults evaluated on the all-null bronze
record. -/
theorem C6_canonicalize_defaults_witness :
    (canonicalize now0 bronzeNull).resource_type = some "vpc" ∧
    (canonicalize now0 bronzeNull).timestamp = some now0 ∧
    (canonicalize now0 bronzeNull).vpc_id = some "" ∧
    (canonicalize now0 bronzeNull).value = some 0 :=
  ⟨(C6_canonicalize_defaults now0 bronzeNull).2.2.2.1 rfl,
   (C6_canonicalize_defaults now0 bronzeNull).2.2.2.2.2.2.1 rfl,
   (C6_canonicalize_defaults now0 bronzeNull).1 rfl,
   (C6_canonicalize_defaults now0 bronzeNull).2.2.2.2.2.2.2.1 rfl⟩

/-- **C9.** Evaluating one gold run on a single silver record whose resource
id is `VPC-A`: the resource dimension is upserted first and stores
`VPC-A` verbatim, but the fact insert joins the dimension on the LOWER-cased
aggregate id `vpc-a`, so the inserted fact's `resource_key` is NULL even
though its hour's `time_key` resolves — the dimension lookup the fact insert
was ordered after can never match a mixed-case id. -/
theorem C9_mixed_case_resource_key_null :
    (goldRun now0 emptyGold mixedCaseBatch).resources.map
        (fun d => d.resource_id) = ["VPC-A"] ∧
    (goldRun now0 emptyGold mixedCaseBatch).facts.map
        (fun f => (f.resource_id, f.resource_key, f.time_key)) =
      [("vpc-a", none, some 0)] :=
  ⟨rfl, rfl⟩

theorem firstDedup_single {α : Type} [DecidableEq α] (x : α) :
    firstDedup [x] = [x] := by
  simp [firstDedup]

theorem upsertResources_single (dim : List ResourceDim) (s : SilverRecord) :
    upsertResources dim [s] = upsertResource dim (resourceRowOf [s] s) := by
  unfold upsertResources
  rw [List.map_singleton, firstDedup_single]
  rfl

theorem resourceRowOf_single (s : SilverRecord) :
    resourceRowOf [s] s =
      { resource_id := s.resource_id.getD ""
        vpc_id := s.vpc_id.getD ""
        vpc_name := s.vpc_name.getD ""
        resource_type := s.resource_type.getD "vpc"
        region := s.region.getD ""
        account_id := s.account_id.getD ""
        first_seen := s.ingested_at } := by
  unfold resourceRowOf minIngestedFor
  simp

/-- **C7.** Upserting the resource dimension a second time for the same
resource id (two single-record silver batches with matching coalesced ids,
against a dimension table not yet containing that id) overwrites the
descriptive attributes with the second batch's values while the `first_seen`
timestamp established by the first upsert is retained: the final table is the
original rows followed by one row carrying the second record's attributes and
the first record's `ingested_at`. -/
theorem C7_attrs_overwritten_first_seen_retained
    (dim : List ResourceDim) (s₁ s₂ : SilverRecord)
    (hid : s₂.resource_id.getD "" = s₁.resource_id.getD "")
    (habs : dim.any
      (fun d => d.resource_id = s₁.resource_id.getD "") = false) :
    upsertResources (upsertResources dim [s₁]) [s₂] =
      dim ++ [{ resource_id := s₁.resource_id.getD ""
                vpc_id := s₂.vpc_id.getD ""
                vpc_name := s₂.vpc_name.getD ""
                resource_type := s₂.resource_type.getD "vpc"
                region := s₂.region.getD ""
                account_id := s₂.account_id.getD ""
                first_seen := s₁.ingested_at }] := by
  rw [upsertResources_single, upsertResources_single,
    resourceRowOf_single, resourceRowOf_single]
  have h1 : upsertResource dim
      { resource_id := s₁.resource_id.getD ""
        vpc_id := s₁.vpc_id.getD ""
        vpc_name := s₁.vpc_name.getD ""
        resource_type := s₁.resource_type.getD "vpc"
        region := s₁.region.getD ""
        account_id := s₁.account_id.getD ""
        first_seen := s₁.ingested_at } =
      dim ++ [{ resource_id := s₁.resource_id.getD ""
                vpc_id := s₁.vpc_id.getD ""
                vpc_name := s₁.vpc_name.getD ""
                resource_type := s₁.resource_type.getD "vpc"
                region := s₁.region.getD ""
                account_id := s₁.account_id.getD ""
                first_seen := s₁.ingested_at }] := by
    unfold upsertResource
    rw [habs]
    rfl
  rw [h1]
  unfold upsertResource
  have hq : ∀ d ∈ dim, (d.resource_id = s₂.resource_id.getD "") = False := by
    intro d hd
    have := List.any_eq_false.mp habs d hd
    simp only [decide_eq_true_eq] at this
    simp [hid, this]
  have hany : (dim ++
      ([{ resource_id := s₁.resource_id.getD ""
          vpc_id := s₁.vpc_id.getD ""
          vpc_name := s₁.vpc_name.getD ""
          resource_type := s₁.resource_type.getD "vpc"
          region := s₁.region.getD ""
          account_id := s₁.account_id.getD ""
          first_seen := s₁.ingested_at }] : List ResourceDim)).any
        (fun d => d.resource_id = s₂.resource_id.getD "") = true := by
    rw [List.any_append]
    simp [hid]
  rw [hany]
  simp only [if_true, List.map_append]
  congr 1
  · conv_rhs => rw [show dim = dim.map id from (List.map_id dim).symm]
    apply List.map_congr_left
    intro d hd
    simp [hq d hd]
  · simp [hid]

/-- **C7 witness.** The theorem applied to two concrete single-record
batches for resource `r` with different attribute payloads. -/
theorem C7_attrs_overwritten_first_seen_retained_witness :
    upsertResources
        (upsertResources []
          [{ mkSilver "r" (tsAt 10 0 0) 10 "Percent" "h1" with
               vpc_name := some "one", ingested_at := tsAt 9 0 0 }])
        [{ mkSilver "r" (tsAt 11 0 0) 20 "Percent" "h2" with
             vpc_name := some "two", ingested_at := tsAt 12 0 0 }] =
      [{ resource_id := "r", vpc_id := "vpc-1", vpc_name := "two",
         resource_type := "vpc", region := "us-east-1", account_id := "111",
         first_seen := tsAt 9 0 0 }] :=
  C7_attrs_overwritten_first_seen_retained [] _ _ rfl rfl

/-- **C1 (counterexample).** Three silver records for one resource and one
metric, all inside hour 10 but at minutes 0, 1 and 2, with values 10, 20, 30:
rollup inserts THREE facts (one per exact timestamp, each with sample count
1), all sharing the same hour bucket — not the single fact with value 20.0
and sample count 3 the claim predicts, because the `metric_agg` `GROUP BY`
includes the full timestamp, not the hour bucket. -/
theorem C1_counterexample :
    (goldRun now0 emptyGold hourBatch).facts.length = 3 ∧
    (goldRun now0 emptyGold hourBatch).facts.map (fun f => f.samples) =
      [1, 1, 1] ∧
    firstDedup
        ((goldRun now0 emptyGold hourBatch).facts.map
          (fun f => f.event_hour)) =
      [tsAt 10 0 0] := by
  refine ⟨rfl, rfl, ?_⟩
  decide

/-- **C1 (amended).** Rollup aggregates the silver records sharing the same
lower-cased resource id, resource attributes, EXACT timestamp (hence a
fortiori the same hour bucket) and metric name into a single fact whose
value is the arithmetic mean of the group's numeric values and whose sample
count is the number of contributing records: three records with a common
group key and values [10, 20, 30] yield one fact with value 20.0 and sample
count 3. -/
theorem C1_rollup_mean_and_samples (now : Timestamp)
    (r₁ r₂ r₃ : SilverRecord)
    (h₂ : aggKey now r₂ = aggKey now r₁)
    (h₃ : aggKey now r₃ = aggKey now r₁)
    (hv₁ : r₁.value = some 10) (hv₂ : r₂.value = some 20)
    (hv₃ : r₃.value = some 30) :
    ∃ f : FactRow, (goldRun now emptyGold [r₁, r₂, r₃]).facts = [f] ∧
      f.value = some 20 ∧ f.samples = 3 := by
  have hgrp : groupOf now [r₁, r₂, r₃] (aggKey now r₁) = [r₁, r₂, r₃] := by
    unfold groupOf
    simp [List.filter_cons, h₂, h₃]
  have hAgg : metricAgg now [r₁, r₂, r₃] =
      [aggRowOf now [r₁, r₂, r₃] (aggKey now r₁)] := by
    unfold metricAgg
    have hmap : [r₁, r₂, r₃].map (aggKey now) =
        [aggKey now r₁, aggKey now r₁, aggKey now r₁] := by
      simp [h₂, h₃]
    rw [hmap]
    have hdedup : firstDedup
        [aggKey now r₁, aggKey now r₁, aggKey now r₁] = [aggKey now r₁] := by
      simp [firstDedup]
    rw [hdedup, List.map_singleton]
  refine ⟨toFactRow (upsertResources [] [r₁, r₂, r₃])
    (upsertTimes now [] [r₁, r₂, r₃])
    (aggRowOf now [r₁, r₂, r₃] (aggKey now r₁)), ?_, ?_, ?_⟩
  · rw [goldRun_facts]
    have hnew : newFactRows now emptyGold [r₁, r₂, r₃] =
        [toFactRow (upsertResources [] [r₁, r₂, r₃])
          (upsertTimes now [] [r₁, r₂, r₃])
          (aggRowOf now [r₁, r₂, r₃] (aggKey now r₁))] := by
      unfold newFactRows
      rw [hAgg]
      rfl
    rw [hnew]
    rw [show emptyGold.facts = [] from rfl]
    rw [insertFacts_of_free]
    · rfl
    · constructor
      · exact List.nodup_singleton _
      · intro h hh
        simp
  · show (aggRowOf now [r₁, r₂, r₃] (aggKey now r₁)).value = some 20
    unfold aggRowOf
    rw [hgrp]
    simp only [List.filterMap_cons, hv₁, hv₂, hv₃, List.filterMap_nil]
    unfold ratAvg
    norm_num
  · show (aggRowOf now [r₁, r₂, r₃] (aggKey now r₁)).samples = 3
    unfold aggRowOf
    rw [hgrp]
    rfl

/-- **C1 (amended) witness.** The amended statement at three concrete
records sharing the exact timestamp 2025-01-01 10:00:00. -/
theorem C1_rollup_mean_and_samples_witness :
    ∃ f : FactRow,
      (goldRun now0 emptyGold
          [mkSilver "r" (tsAt 10 0 0) 10 "Percent" "h1",
           mkSilver "r" (tsAt 10 0 0) 20 "Percent" "h2",
           mkSilver "r" (tsAt 10 0 0) 30 "Percent" "h3"]).facts = [f] ∧
      f.value = some 20 ∧ f.samples = 3 :=
  C1_rollup_mean_and_samples now0 _ _ _ rfl rfl rfl rfl rfl

/-- **C10.** Two silver records that fall into different aggregation groups
(e.g. differing vpc names or sub-second timestamp digits) yet share the fact
fingerprint (same lower-cased resource id, second-truncated timestamp and
metric name) both pass the fingerprint-existence check against the committed
fact table, and the fact insert then violates `UNIQUE(hash_key)` and aborts,
leaving the gold fact table unchanged for that pass — no partial insert. -/
theorem C10_duplicate_hash_aborts_insert (now : Timestamp) (st : GoldState)
    (r₁ r₂ : SilverRecord)
    (hk : aggKey now r₁ ≠ aggKey now r₂)
    (hh : factHashOfKey (aggKey now r₁) = factHashOfKey (aggKey now r₂))
    (habs : ∀ f ∈ st.facts, f.hash_key ≠ factHashOfKey (aggKey now r₁)) :
    (goldRun now st [r₁, r₂]).facts = st.facts := by
  have hAgg : metricAgg now [r₁, r₂] =
      [aggRowOf now [r₁, r₂] (aggKey now r₁),
       aggRowOf now [r₁, r₂] (aggKey now r₂)] := by
    unfold metricAgg
    have hdedup : firstDedup [aggKey now r₁, aggKey now r₂] =
        [aggKey now r₁, aggKey now r₂] := by
      simp [firstDedup, Ne.symm hk]
    rw [List.map_cons, List.map_cons, List.map_nil, hdedup]
    rfl
  have hkeep : ∀ k : AggKey, factHashOfKey k = factHashOfKey (aggKey now r₁) →
      (st.facts.any
        (fun f => f.hash_key =
          (aggRowOf now [r₁, r₂] k).fact_hash_key)) = false := by
    intro k hke
    rw [List.any_eq_false]
    intro f hf
    have : (aggRowOf now [r₁, r₂] k).fact_hash_key = factHashOfKey k := rfl
    rw [this, hke]
    simpa using habs f hf
  have hnew : newFactRows now st [r₁, r₂] =
      [toFactRow (upsertResources st.resources [r₁, r₂])
        (upsertTimes now st.times [r₁, r₂])
        (aggRowOf now [r₁, r₂] (aggKey now r₁)),
       toFactRow (upsertResources st.resources [r₁, r₂])
        (upsertTimes now st.times [r₁, r₂])
        (aggRowOf now [r₁, r₂] (aggKey now r₂))] := by
    unfold newFactRows
    rw [hAgg]
    rw [List.filter_cons, List.filter_cons]
    rw [hkeep (aggKey now r₁) rfl, hkeep (aggKey now r₂) hh.symm]
    rfl
  rw [goldRun_facts, hnew]
  apply insertFacts_of_clash
  intro hfree
  have hnd := hfree.1
  rw [List.map_cons, List.map_cons, List.map_nil] at hnd
  rw [toFactRow_hash_key, toFactRow_hash_key] at hnd
  have : (aggRowOf now [r₁, r₂] (aggKey now r₁)).fact_hash_key =
      (aggRowOf now [r₁, r₂] (aggKey now r₂)).fact_hash_key := hh
  rw [List.nodup_cons] at hnd
  exact hnd.1 (by simp [this])

/-- **C10 witness.** The theorem at the concrete clash pair: identical
resource id, timestamp and metric but different vpc names, against an empty
fact table. -/
theorem C10_duplicate_hash_aborts_insert_witness :
    (goldRun now0 emptyGold [clashA, clashB]).facts = [] :=
  C10_duplicate_hash_aborts_insert now0 emptyGold clashA clashB
    (by decide) rfl (by intro f hf; cases hf)

theorem charLt_iff (a b : Char) : a < b ↔ a.toNat < b.toNat := Iff.rfl

theorem charsLt_iff : ∀ as bs : List Char,
    charsLt as bs = true ↔ List.lt as bs := by
  intro as
  induction as with
  | nil =>
    intro bs
    cases bs with
    | nil =>
      constructor
      · intro h; cases h
      · intro h; cases h
    | cons b bs =>
      constructor
      · intro _; exact List.lt.nil b bs
      · intro _; rfl
  | cons a as ih =>
    intro bs
    cases bs with
    | nil =>
      constructor
      · intro h; cases h
      · intro h; cases h
    | cons b bs =>
      unfold charsLt
      by_cases hab : a.toNat < b.toNat
      · rw [if_pos hab]
        constructor
        · intro _; exact List.lt.head as bs ((charLt_iff a b).mpr hab)
        · intro _; rfl
      · rw [if_neg hab]
        by_cases hba : b.toNat < a.toNat
        · rw [if_pos hba]
          constructor
          · intro h; cases h
          · intro h
            cases h with
            | head _ _ hlt => exact absurd ((charLt_iff a b).mp hlt) hab
            | tail _ hnba _ => exact absurd ((charLt_iff b a).mpr hba) hnba
        · rw [if_neg hba]
          constructor
          · intro h
            exact List.lt.tail (fun hc => hab ((charLt_iff a b).mp hc))
              (fun hc => hba ((charLt_iff b a).mp hc)) ((ih bs).mp h)
          · intro h
            cases h with
            | head _ _ hlt => exact absurd ((charLt_iff a b).mp hlt) hab
            | tail _ _ htl => exact (ih bs).mpr htl

theorem strLt_iff (a b : String) : charsLt a.data b.data = true ↔ a < b := by
  have hb : (a < b) ↔ List.lt a.data b.data := by
    rw [String.lt_iff_toList_lt, List.lt_iff_lex_lt]
    exact Iff.rfl
  rw [hb]
  exact charsLt_iff a.data b.data

theorem le_strMax_left (a b : String) : a ≤ strMax a b := by
  unfold strMax
  cases h : charsLt a.data b.data
  · simp [h]
  · simp only [h, if_true]
    exact le_of_lt ((strLt_iff a b).mp h)

theorem le_strMax_right (a b : String) : b ≤ strMax a b := by
  unfold strMax
  cases h : charsLt a.data b.data
  · have hno : ¬ a < b := fun hc => by
      rw [(strLt_iff a b).mpr hc] at h
      cases h
    simp only [h, Bool.false_eq_true, if_false]
    exact le_of_not_lt hno
  · simp [h]

theorem strMax_eq_or (a b : String) : strMax a b = a ∨ strMax a b = b := by
  unfold strMax
  cases h : charsLt a.data b.data
  · simp
  · simp

theorem foldl_strMax_spec (l : List String) :
    ∀ seed : String,
      (l.foldl strMax seed = seed ∨ l.foldl strMax seed ∈ l) ∧
      seed ≤ l.foldl strMax seed ∧
      ∀ v ∈ l, v ≤ l.foldl strMax seed := by
  induction l with
  | nil =>
    intro seed
    exact ⟨Or.inl rfl, le_refl _, by intro v hv; cases hv⟩
  | cons a as ih =>
    intro seed
    simp only [List.foldl_cons]
    obtain ⟨hres, hseed, hub⟩ := ih (strMax seed a)
    refine ⟨?_, ?_, ?_⟩
    · rcases hres with h | h
      · rw [h]
        rcases strMax_eq_or seed a with h2 | h2
        · exact Or.inl h2
        · rw [h2]
          exact Or.inr (List.mem_cons_self a as)
      · exact Or.inr (List.mem_cons_of_mem a h)
    · exact le_trans (le_strMax_left seed a) hseed
    · intro v hv
      rcases List.mem_cons.mp hv with h | h
      · subst h
        exact le_trans (le_strMax_right seed v) hseed
      · exact hub v h

theorem maxUnit_spec (l : List String) (u : String)
    (h : maxUnit l = some u) : u ∈ l ∧ ∀ v ∈ l, v ≤ u := by
  cases l with
  | nil => cases h
  | cons a as =>
    unfold maxUnit at h
    injection h with h
    obtain ⟨hres, hseed, hub⟩ := foldl_strMax_spec as a
    subst h
    constructor
    · rcases hres with h | h
      · rw [h]
        exact List.mem_cons_self a as
      · exact List.mem_cons_of_mem a h
    · intro v hv
      rcases List.mem_cons.mp hv with h | h
      · exact h ▸ hseed
      · exact hub v h

/-- **C8 (counterexample).** A group whose records carry units
"a", "b", "a" in scan order: the fact's unit is "b" (the `MAX(unit)` text
maximum), yet "b" is neither the most frequently seen unit of the group
("a" occurs twice, "b" once) nor the last-seen unit ("a"). -/
theorem C8_counterexample :
    (goldRun now0 emptyGold unitsBatch).facts.map (fun f => f.unit) =
      [some "b"] ∧
    (groupOf now0 unitsBatch unitsAggRow.key).filterMap (fun s => s.unit) =
      ["a", "b", "a"] ∧
    ¬ specMostFrequentUnit ["a", "b", "a"] "b" ∧
    specLastSeenUnit ["a", "b", "a"] ≠ some "b" := by
  refine ⟨rfl, rfl, ?_, ?_⟩ <;> decide

/-- **C8 (amended).** For every aggregation group, the resulting fact's unit
(when not NULL) is the greatest of the group's non-null units in SQL text
order — `MAX(unit)` — i.e. it occurs in the group and every unit of the
group is ≤ it; it need not be the most frequent or the last-seen unit. -/
theorem C8_unit_is_group_max (now : Timestamp) (batch : List SilverRecord)
    (a : AggRow) (ha : a ∈ metricAgg now batch) (u : String)
    (hu : a.unit = some u) :
    u ∈ (groupOf now batch a.key).filterMap (fun s => s.unit) ∧
      ∀ v ∈ (groupOf now batch a.key).filterMap (fun s => s.unit), v ≤ u := by
  unfold metricAgg at ha
  obtain ⟨k, hk, hak⟩ := List.mem_map.mp ha
  subst hak
  exact maxUnit_spec _ u hu

/-- **C8 (amended) witness.** The amended statement at the concrete
"a", "b", "a" group. -/
theorem C8_unit_is_group_max_witness :
    "b" ∈ (groupOf now0 unitsBatch unitsAggRow.key).filterMap
        (fun s => s.unit) ∧
    ∀ v ∈ (groupOf now0 unitsBatch unitsAggRow.key).filterMap
        (fun s => s.unit), v ≤ "b" :=
  C8_unit_is_group_max now0 unitsBatch unitsAggRow
    (List.mem_map_of_mem (aggRowOf now0 unitsBatch) (by decide))
    "b" (by decide)

/-- **C3.** Running rollup twice consecutively (at any two statement clocks)
over the same silver snapshot — one whose records all carry an event
timestamp, as bronze→silver promotion guarantees — produces exactly the same
gold fact set as running it once: every aggregated row's hash key is already
present (or the aborted insert re-aborts identically), so the second run
inserts no new fact rows and leaves every fact unchanged. -/
theorem C3_rollup_idempotent (now₁ now₂ : Timestamp) (st : GoldState)
    (silver : List SilverRecord)
    (hts : ∀ s ∈ silver, s.timestamp.isSome = true) :
    (goldRun now₂ (goldRun now₁ st silver) silver).facts =
      (goldRun now₁ st silver).facts := by
  set st₁ := goldRun now₁ st silver with hst₁
  have hAgg : metricAgg now₂ silver = metricAgg now₁ silver :=
    metricAgg_now_indep now₂ now₁ silver hts
  rw [goldRun_facts now₂ st₁ silver]
  have hfacts₁ : st₁.facts =
      insertFacts st.facts (newFactRows now₁ st silver) := rfl
  by_cases hc : factConflictFree st.facts (newFactRows now₁ st silver)
  · have h1 : st₁.facts = st.facts ++ newFactRows now₁ st silver := by
      rw [hfacts₁, insertFacts_of_free _ _ hc]
    have hfe : (metricAgg now₂ silver).filter
        (fun a => !(st₁.facts.any
          (fun f => f.hash_key = a.fact_hash_key))) = [] := by
      rw [List.filter_eq_nil_iff]
      intro a ha
      rw [hAgg] at ha
      have hany : st₁.facts.any
          (fun f => f.hash_key = a.fact_hash_key) = true := by
        cases hex : st.facts.any
            (fun f => f.hash_key = a.fact_hash_key) with
        | true => rw [h1, List.any_append, hex]; rfl
        | false =>
          have hmem : a ∈ (metricAgg now₁ silver).filter
              (fun a => !(st.facts.any
                (fun f => f.hash_key = a.fact_hash_key))) :=
            List.mem_filter.mpr ⟨ha, by rw [hex]; rfl⟩
          have hmem2 : toFactRow (upsertResources st.resources silver)
              (upsertTimes now₁ st.times silver) a ∈
                newFactRows now₁ st silver := by
            unfold newFactRows
            exact List.mem_map_of_mem _ hmem
          rw [h1, List.any_append]
          have hn : (newFactRows now₁ st silver).any
              (fun f => f.hash_key = a.fact_hash_key) = true := by
            rw [List.any_eq_true]
            exact ⟨_, hmem2, by rw [toFactRow_hash_key]; simp⟩
          rw [hn, Bool.or_true]
      simp [hany]
    have hempty : newFactRows now₂ st₁ silver = [] := by
      unfold newFactRows
      rw [hfe]
      rfl
    rw [hempty]
    rw [insertFacts_of_free _ _ (by unfold factConflictFree; simp)]
    exact List.append_nil _
  · have h1 : st₁.facts = st.facts := by
      rw [hfacts₁, insertFacts_of_clash _ _ hc]
    have hsame : (newFactRows now₂ st₁ silver).map (fun f => f.hash_key) =
        (newFactRows now₁ st silver).map (fun f => f.hash_key) := by
      unfold newFactRows
      rw [hAgg, h1, List.map_map, List.map_map]
      rfl
    have hc2 : ¬ factConflictFree st₁.facts
        (newFactRows now₂ st₁ silver) := by
      rw [h1]
      intro hfree
      apply hc
      unfold factConflictFree at hfree ⊢
      rw [hsame] at hfree
      exact hfree
    rw [insertFacts_of_clash _ _ hc2]

/-- **C3 witness.** Idempotence evaluated on the concrete hour-10 batch with
two different statement clocks. -/
theorem C3_rollup_idempotent_witness :
    (goldRun now1 (goldRun now0 emptyGold hourBatch) hourBatch).facts =
      (goldRun now0 emptyGold hourBatch).facts :=
  C3_rollup_idempotent now0 now1 emptyGold hourBatch (by decide)

/-- **C4 (counterexample).** First rollup over three records at
2025-01-01 10:00:00 yields one fact with sample count 3. A second rollup
whose input adds one late record at 10:05:00 — the same hour — leaves that
fact unchanged but INSERTS A NEW FACT for the late record (sample count 1,
same hour bucket): the late record is not merged, yet it IS reflected in the
gold fact set as a fact row of its own, because its second-truncated
timestamp yields a fresh fingerprint. -/
theorem C4_counterexample :
    (goldRun now0 emptyGold sameTsBatch).facts.map
        (fun f => (f.hash_key, f.samples)) =
      [("r|2025-01-01 10:00:00|CPUUtilization", 3)] ∧
    (goldRun now1 (goldRun now0 emptyGold sameTsBatch)
          (sameTsBatch ++ [lateRecord])).facts.map
        (fun f => (f.hash_key, f.samples)) =
      [("r|2025-01-01 10:00:00|CPUUtilization", 3),
       ("r|2025-01-01 10:05:00|CPUUtilization", 1)] ∧
    (goldRun now1 (goldRun now0 emptyGold sameTsBatch)
          (sameTsBatch ++ [lateRecord])).facts.map
        (fun f => f.event_hour) = [tsAt 10 0 0, tsAt 10 0 0] :=
  ⟨rfl, rfl, rfl⟩

/-- **C4 (amended).** A rollup pass over an already-rolled-up bucket's
records plus one late record never alters or merges into the existing facts
— the fact table only grows by appended rows — and when the late record
forms its own aggregation group whose fingerprint is not yet in the fact
table (e.g. a new second within the hour) it yields a NEW fact row of its
own with sample count 1, rather than being dropped. -/
theorem C4_late_record_not_merged_but_appended (now : Timestamp)
    (st : GoldState) (silver : List SilverRecord) (late : SilverRecord)
    (hkey : ∀ s ∈ silver, aggKey now s ≠ aggKey now late)
    (hhash : ∀ f ∈ st.facts,
      f.hash_key ≠ factHashOfKey (aggKey now late))
    (hfree : factConflictFree st.facts
      (newFactRows now st (silver ++ [late]))) :
    (∃ t, (goldRun now st (silver ++ [late])).facts = st.facts ++ t) ∧
    ∃ f ∈ (goldRun now st (silver ++ [late])).facts,
      f ∉ st.facts ∧
      f.hash_key = factHashOfKey (aggKey now late) ∧
      f.samples = 1 := by
  constructor
  · exact goldRun_facts_append now st (silver ++ [late])
  · have hlate : late ∈ silver ++ [late] :=
      List.mem_append_right silver (List.mem_singleton.mpr rfl)
    have hkmem : aggKey now late ∈
        firstDedup ((silver ++ [late]).map (aggKey now)) :=
      (mem_firstDedup _ _).mpr (List.mem_map_of_mem (aggKey now) hlate)
    have hamem : aggRowOf now (silver ++ [late]) (aggKey now late) ∈
        metricAgg now (silver ++ [late]) :=
      List.mem_map_of_mem (aggRowOf now (silver ++ [late])) hkmem
    have hgrp : groupOf now (silver ++ [late]) (aggKey now late) =
        [late] := by
      unfold groupOf
      rw [List.filter_append]
      have h1 : silver.filter
          (fun s => aggKey now s = aggKey now late) = [] := by
        rw [List.filter_eq_nil_iff]
        intro s hs
        simp [hkey s hs]
      rw [h1]
      simp
    have hnotin : st.facts.any
        (fun f => f.hash_key =
          (aggRowOf now (silver ++ [late])
            (aggKey now late)).fact_hash_key) = false := by
      rw [List.any_eq_false]
      intro f hf
      have : (aggRowOf now (silver ++ [late])
          (aggKey now late)).fact_hash_key =
            factHashOfKey (aggKey now late) := rfl
      rw [this]
      simpa using hhash f hf
    have hfmem : toFactRow (upsertResources st.resources (silver ++ [late]))
        (upsertTimes now st.times (silver ++ [late]))
        (aggRowOf now (silver ++ [late]) (aggKey now late)) ∈
          newFactRows now st (silver ++ [late]) := by
      unfold newFactRows
      apply List.mem_map_of_mem
      exact List.mem_filter.mpr ⟨hamem, by rw [hnotin]; rfl⟩
    refine ⟨toFactRow (upsertResources st.resources (silver ++ [late]))
        (upsertTimes now st.times (silver ++ [late]))
        (aggRowOf now (silver ++ [late]) (aggKey now late)), ?_, ?_, ?_, ?_⟩
    · rw [goldRun_facts, insertFacts_of_free _ _ hfree]
      exact List.mem_append_right _ hfmem
    · intro hin
      exact hhash _ hin rfl
    · rfl
    · show (aggRowOf now (silver ++ [late]) (aggKey now late)).samples = 1
      unfold aggRowOf
      rw [hgrp]
      rfl

/-- **C4 (amended) witness.** The amended statement at the concrete
scenario: the 10:00:00 bucket already rolled up, second pass with the
original records plus the 10:05:00 late record. -/
theorem C4_late_record_not_merged_but_appended_witness :
    (∃ t, (goldRun now1 (goldRun now0 emptyGold sameTsBatch)
        (sameTsBatch ++ [lateRecord])).facts =
      (goldRun now0 emptyGold sameTsBatch).facts ++ t) ∧
    ∃ f ∈ (goldRun now1 (goldRun now0 emptyGold sameTsBatch)
        (sameTsBatch ++ [lateRecord])).facts,
      f ∉ (goldRun now0 emptyGold sameTsBatch).facts ∧
      f.hash_key = factHashOfKey (aggKey now1 lateRecord) ∧
      f.samples = 1 :=
  C4_late_record_not_merged_but_appended now1
    (goldRun now0 emptyGold sameTsBatch) sameTsBatch lateRecord
    (by decide) (by decide) (by decide)
